import Mathlib

/-!
Verification of the distance/area engine in src/src/core/qgsdistancearea.cpp.

Modelling conventions:
* IEEE-754 doubles are modelled as exact rationals (every finite double is a
  rational number).  Decimal literals of the C++ source (1e-12, 85.05115, ...)
  are taken at their exact decimal value.
* The libm transcendental functions (sin, cos, tan, asin, atan, atan2, sqrt)
  are rational-valued functions on doubles; they are kept abstract as the
  fields of an `Ops` record, so every theorem quantifies over them.
* Rational division is total with x / 0 = 0; the C++ may produce inf/nan at
  the same spots.  No claim below depends on such a division.
* The member variables of QgsDistanceArea are collected in `DAState`; the
  `QString mEllipsoid` tag (GEO_NONE / catalog id / "PARAMETER:a:b") is
  modelled by the inductive `EllipsoidId`.
-/

namespace QgsDistanceArea

/-- A QgsPointXY: a pair of double coordinates. -/
structure Point where
  x : ℚ
  y : ℚ
deriving DecidableEq

/-- The real-valued primitives the C++ code takes from libm / qgis.h.  Their
double implementations are rational-valued functions, kept abstract here.
`piv` stands for the double constant M_PI, `qgsDoubleNear` for the helper of
qgis.h (defined outside src/). -/
structure Ops where
  piv : ℚ
  sin : ℚ → ℚ
  cos : ℚ → ℚ
  tan : ℚ → ℚ
  asin : ℚ → ℚ
  atan : ℚ → ℚ
  sqrt : ℚ → ℚ
  atan2 : ℚ → ℚ → ℚ
  qgsDoubleNear : ℚ → ℚ → Bool

/-- std::fabs on doubles. -/
def fabs (x : ℚ) : ℚ := if x < 0 then -x else x

theorem fabs_eq_abs (x : ℚ) : fabs x = |x| := by
  rw [fabs]
  split_ifs with h
  · exact (abs_of_neg h).symm
  · exact (abs_of_nonneg (not_lt.mp h)).symm

/-- DEG2RAD(x) = x * M_PI / 180 (qgsdistancearea.cpp line 40). -/
def deg2rad (piv x : ℚ) : ℚ := x * piv / 180

/-- RAD2DEG(r) = 180 * r / M_PI (qgsdistancearea.cpp line 41). -/
def rad2deg (piv r : ℚ) : ℚ := 180 * r / piv

/-- The `QString mEllipsoid` member: GEO_NONE, a catalog identifier, or the
synthetic PARAMETER:a:b tag set by setEllipsoid(a, b). -/
inductive EllipsoidId where
  | geoNone : EllipsoidId
  | named : Nat → EllipsoidId
  | params : ℚ → ℚ → EllipsoidId
deriving DecidableEq

/-- The member variables of QgsDistanceArea that the measured code reads. -/
structure DAState where
  mEllipsoid : EllipsoidId
  mSemiMajor : ℚ
  mSemiMinor : ℚ
  mInvFlattening : ℚ
  m_QA : ℚ
  m_QB : ℚ
  m_QC : ℚ
  m_QbarA : ℚ
  m_QbarB : ℚ
  m_QbarC : ℚ
  m_QbarD : ℚ
  m_AE : ℚ
  m_Qp : ℚ
  m_E : ℚ
  m_TwoPI : ℚ
deriving DecidableEq

/-- willUseEllipsoid(): mEllipsoid != GEO_NONE (lines 55-58). -/
def willUseEllipsoid (st : DAState) : Bool :=
  decide (st.mEllipsoid ≠ EllipsoidId.geoNone)

theorem willUseEllipsoid_false_iff (st : DAState) :
    willUseEllipsoid st = false ↔ st.mEllipsoid = EllipsoidId.geoNone := by
  simp [willUseEllipsoid]

theorem willUseEllipsoid_true_iff (st : DAState) :
    willUseEllipsoid st = true ↔ st.mEllipsoid ≠ EllipsoidId.geoNone := by
  simp [willUseEllipsoid]

/-- getQ (lines 997-1005). -/
def getQ (st : DAState) (ops : Ops) (x : ℚ) : ℚ :=
  let sinx := ops.sin x
  let sinx2 := sinx * sinx
  sinx * (1 + sinx2 * (st.m_QA + sinx2 * (st.m_QB + sinx2 * st.m_QC)))

/-- getQbar (lines 1008-1016). -/
def getQbar (st : DAState) (ops : Ops) (x : ℚ) : ℚ :=
  let cosx := ops.cos x
  let cosx2 := cosx * cosx
  cosx * (st.m_QbarA + cosx2 * (st.m_QbarB + cosx2 * (st.m_QbarC + cosx2 * st.m_QbarD)))

/-- computeAreaInit (lines 1019-1051): recompute the derived area constants;
does nothing when mEllipsoid == GEO_NONE. -/
def computeAreaInit (st : DAState) (ops : Ops) : DAState :=
  if st.mEllipsoid = EllipsoidId.geoNone then st
  else
    let a2 := st.mSemiMajor * st.mSemiMajor
    let e2 := 1 - st.mSemiMinor * st.mSemiMinor / a2
    let e4 := e2 * e2
    let e6 := e4 * e2
    let st1 : DAState :=
      { st with
        m_TwoPI := ops.piv + ops.piv
        m_AE := a2 * (1 - e2)
        m_QA := (2 / 3) * e2
        m_QB := (3 / 5) * e4
        m_QC := (4 / 7) * e6
        m_QbarA := -1 - (2 / 3) * e2 - (3 / 5) * e4 - (4 / 7) * e6
        m_QbarB := (2 / 9) * e2 + (2 / 5) * e4 + (4 / 7) * e6
        m_QbarC := -(3 / 25) * e4 - (12 / 35) * e6
        m_QbarD := (4 / 49) * e6 }
    let qp := getQ st1 ops (ops.piv / 2)
    let e0 := 4 * ops.piv * qp * st1.m_AE
    { st1 with
      m_Qp := qp
      m_E := if e0 < 0 then -e0 else e0 }

/-- setEllipsoid(double semiMajor, double semiMinor) (lines 90-100): stores
the synthetic PARAMETER tag and the raw parameters, recomputes the area
constants, and returns true unconditionally. -/
def setEllipsoidFromParams (st : DAState) (ops : Ops) (semiMajor semiMinor : ℚ) :
    DAState × Bool :=
  let st1 : DAState :=
    { st with
      mEllipsoid := EllipsoidId.params semiMajor semiMinor
      mSemiMajor := semiMajor
      mSemiMinor := semiMinor
      mInvFlattening := semiMajor / (semiMajor - semiMinor) }
  (computeAreaInit st1 ops, true)

/-- GRASS dy threshold of computePolygonArea (line 1088). -/
def thresh : ℚ := 1e-6

/-- The longitude-unwrap loop of computePolygonArea (lines 1112-1117):
`while (hi - lo > M_PI) lo += m_TwoPI`.  The extra `0 < twoPi` guard only
makes the loop total; it holds for the M_PI-derived value of m_TwoPI. -/
def bumpLon (piv twoPi hi lo : ℚ) : ℚ :=
  if h : 0 < twoPi ∧ piv < hi - lo then bumpLon piv twoPi hi (lo + twoPi) else lo
termination_by (⌈(hi - lo - piv) / twoPi⌉).toNat
decreasing_by
  have h1 : (0 : ℚ) < twoPi := h.1
  have h2 : piv < hi - lo := h.2
  have key : (hi - (lo + twoPi) - piv) / twoPi = (hi - lo - piv) / twoPi - 1 := by
    field_simp
    ring
  rw [key, Int.ceil_sub_one]
  have hc : 0 < ⌈(hi - lo - piv) / twoPi⌉ :=
    Int.ceil_pos.mpr (div_pos (by linarith) h1)
  omega

/-- The edge unwrap of computePolygonArea (lines 1112-1117): add m_TwoPI to
whichever longitude is smaller while the difference exceeds M_PI. -/
def unwrapLon (piv twoPi x1 x2 : ℚ) : ℚ × ℚ :=
  if x1 > x2 then (x1, bumpLon piv twoPi x1 x2)
  else if x2 > x1 then (bumpLon piv twoPi x2 x1, x2)
  else (x1, x2)

/-- One iteration of the edge loop of computePolygonArea (lines 1102-1142).
The accumulator carries (x2, y2, Qbar2, area); note that the unwrapped x2
persists into the next edge as its x1, exactly as in the source. -/
def areaEdgeStep (st : DAState) (ops : Ops) (acc : ℚ × ℚ × ℚ × ℚ) (p : Point) :
    ℚ × ℚ × ℚ × ℚ :=
  let x1 := acc.1
  let y1 := acc.2.1
  let Qbar1 := acc.2.2.1
  let area := acc.2.2.2
  let x2 := deg2rad ops.piv p.x
  let y2 := deg2rad ops.piv p.y
  let Qbar2 := getQbar st ops y2
  let xs := unwrapLon ops.piv st.m_TwoPI x1 x2
  let dx := xs.2 - xs.1
  let dy := y2 - y1
  let contrib :=
    if thresh < fabs dy then dx * (st.m_Qp - (Qbar2 - Qbar1) / dy)
    else dx * (st.m_Qp - getQ st ops ((y1 + y2) / 2))
  (xs.2, y2, Qbar2, area + contrib)

/-- The accumulated edge sum of computePolygonArea (lines 1095-1142); the
start state comes from the last vertex (points[n-1]). -/
def ellSum (st : DAState) (ops : Ops) (points : List Point) : ℚ :=
  let plast := points.getLastD ⟨0, 0⟩
  let x2 := deg2rad ops.piv plast.x
  let y2 := deg2rad ops.piv plast.y
  let Qbar2 := getQbar st ops y2
  (points.foldl (areaEdgeStep st ops) (x2, y2, Qbar2, 0)).2.2.2

/-- The final steps of computePolygonArea (lines 1143-1155) applied to
`a = (edge sum) * m_AE`: negate if negative, clamp at m_E, flip above
m_E/2, in the exact order of the source. -/
def polarKludge (E a : ℚ) : ℚ :=
  let area2 := if a < 0 then -a else a
  let area3 := if area2 > E then E else area2
  if area3 > E / 2 then E - area3 else area3

/-- Spec wording of section 4.6 for the final area steps: take the absolute
value of (sum * AE), clamp to Eref when it exceeds Eref, then replace by
Eref - area when the (possibly clamped) area exceeds Eref / 2. -/
def specPolarCorrected (Eref rawArea : ℚ) : ℚ :=
  let clamped := if rawArea > Eref then Eref else rawArea
  if clamped > Eref / 2 then Eref - clamped else clamped

/-- Spec wording of section 4.6 for the planar fallback: one half of the
absolute value of the cyclic shoelace sum. -/
def specShoelaceArea (points : List Point) : ℚ :=
  let n := points.length
  (1 / 2) *
    |((List.range n).map (fun i =>
        (points.getD i ⟨0, 0⟩).x * (points.getD ((i + 1) % n) ⟨0, 0⟩).y
      - (points.getD ((i + 1) % n) ⟨0, 0⟩).x * (points.getD i ⟨0, 0⟩).y)).sum|

/-- computePolygonFlatArea (lines 1159-1178): the planar shoelace loop with
index wrap `(i+1) % size`, halved, absolute value taken. -/
def computePolygonFlatArea (points : List Point) : ℚ :=
  let size := points.length
  let area := (List.range size).foldl
    (fun area i =>
      area + (points.getD i ⟨0, 0⟩).x * (points.getD ((i + 1) % size) ⟨0, 0⟩).y
           - (points.getD ((i + 1) % size) ⟨0, 0⟩).x * (points.getD i ⟨0, 0⟩).y) 0
  fabs (area / 2)

/-- computePolygonArea (lines 1070-1157): empty input gives 0, without an
ellipsoid the planar shoelace is used, otherwise the ellipsoidal edge sum
followed by the polar kludge. -/
def computePolygonArea (st : DAState) (ops : Ops) (points : List Point) : ℚ :=
  if points = [] then 0
  else if willUseEllipsoid st = false then computePolygonFlatArea points
  else polarKludge st.m_E (ellSum st ops points * st.m_AE)

/-- The convergence tolerance of the Vincenty inverse loop (line 951). -/
def tolVin : ℚ := 1e-12

/-- The loop-carried variables of computeDistanceBearing (lines 935-948);
`cC` is the C++ variable `C`. -/
structure VinState where
  lambda : ℚ
  lambdaP : ℚ
  sinLambda : ℚ
  cosLambda : ℚ
  tu1 : ℚ
  tu2 : ℚ
  sinSigma : ℚ
  cosSigma : ℚ
  sigma : ℚ
  alpha : ℚ
  cosSqAlpha : ℚ
  cos2SigmaM : ℚ
  cC : ℚ
deriving DecidableEq

/-- The body of the Vincenty inverse while loop (lines 953-966). -/
def vinStep (ops : Ops) (f L sinU1 cosU1 sinU2 cosU2 : ℚ) (s : VinState) : VinState :=
  let sinLambda := ops.sin s.lambda
  let cosLambda := ops.cos s.lambda
  let tu1 := cosU2 * sinLambda
  let tu2 := cosU1 * sinU2 - sinU1 * cosU2 * cosLambda
  let sinSigma := ops.sqrt (tu1 * tu1 + tu2 * tu2)
  let cosSigma := sinU1 * sinU2 + cosU1 * cosU2 * cosLambda
  let sigma := ops.atan2 sinSigma cosSigma
  let alpha := ops.asin (cosU1 * cosU2 * sinLambda / sinSigma)
  let cosSqAlpha := ops.cos alpha * ops.cos alpha
  let cos2SigmaM := cosSigma - 2 * sinU1 * sinU2 / cosSqAlpha
  let cC := f / 16 * cosSqAlpha * (4 + f * (4 - 3 * cosSqAlpha))
  { lambda := L + (1 - cC) * f * ops.sin alpha *
      (sigma + cC * sinSigma * (cos2SigmaM + cC * cosSigma * (-1 + 2 * cos2SigmaM * cos2SigmaM)))
    lambdaP := s.lambda
    sinLambda := sinLambda
    cosLambda := cosLambda
    tu1 := tu1
    tu2 := tu2
    sinSigma := sinSigma
    cosSigma := cosSigma
    sigma := sigma
    alpha := alpha
    cosSqAlpha := cosSqAlpha
    cos2SigmaM := cos2SigmaM
    cC := cC }

/-- The Vincenty inverse while loop (lines 950-967):
`while (fabs(lambda - lambdaP) > 1e-12 && --iterLimit > 0) body`.
The short-circuit semantics is kept: the counter is only decremented when the
first conjunct holds.  Outputs: final state, remaining iterLimit, and a ghost
count of body executions (the last component does not influence the others).
The `il = 0` entry case cannot arise from the initial value 20, because the
loop exits as soon as the decremented counter reaches 0. -/
def vinLoop (step : VinState → VinState) (tol : ℚ) (s : VinState) (il cnt : ℕ) :
    VinState × ℕ × ℕ :=
  if tol < fabs (s.lambda - s.lambdaP) then
    match il with
    | 0 => (s, 0, cnt)
    | il' + 1 =>
      if 0 < il' then vinLoop step tol (step s) il' (cnt + 1) else (s, 0, cnt)
  else (s, il, cnt)

/-- The per-call constants and loop-step function of computeDistanceBearing
(lines 922-934). -/
def vinStepOf (st : DAState) (ops : Ops) (p1 p2 : Point) : VinState → VinState :=
  let f := 1 / st.mInvFlattening
  let p1_lat := deg2rad ops.piv p1.y
  let p2_lat := deg2rad ops.piv p2.y
  let p1_lon := deg2rad ops.piv p1.x
  let p2_lon := deg2rad ops.piv p2.x
  let L := p2_lon - p1_lon
  let U1 := ops.atan ((1 - f) * ops.tan p1_lat)
  let U2 := ops.atan ((1 - f) * ops.tan p2_lat)
  vinStep ops f L (ops.sin U1) (ops.cos U1) (ops.sin U2) (ops.cos U2)

/-- The initial loop state of computeDistanceBearing (lines 935-948):
lambda = L, lambdaP = 2 * M_PI, every other variable 0. -/
def vinInitOf (ops : Ops) (p1 p2 : Point) : VinState :=
  { lambda := deg2rad ops.piv p2.x - deg2rad ops.piv p1.x
    lambdaP := 2 * ops.piv
    sinLambda := 0
    cosLambda := 0
    tu1 := 0
    tu2 := 0
    sinSigma := 0
    cosSigma := 0
    sigma := 0
    alpha := 0
    cosSqAlpha := 0
    cos2SigmaM := 0
    cC := 0 }

/-- The full loop run of computeDistanceBearing with iterLimit = 20. -/
def vinRun (st : DAState) (ops : Ops) (p1 p2 : Point) : VinState × ℕ × ℕ :=
  vinLoop (vinStepOf st ops p1 p2) tolVin (vinInitOf ops p1 p2) 20 0

/-- computeDistanceBearing (lines 915-990), returning the distance value.
The optional course1/course2 out-parameters (lines 979-987) are not modelled;
no claim concerns them.  Early return 0 when the points coincide per
qgsDoubleNear; -1 when the loop exhausted its counter (iterLimit == 0). -/
def computeDistanceBearing (st : DAState) (ops : Ops) (p1 p2 : Point) : ℚ :=
  if ops.qgsDoubleNear p1.x p2.x && ops.qgsDoubleNear p1.y p2.y then 0
  else
    let a := st.mSemiMajor
    let b := st.mSemiMinor
    let r := vinRun st ops p1 p2
    if r.2.1 = 0 then -1
    else
      let sf := r.1
      let uSq := sf.cosSqAlpha * (a * a - b * b) / (b * b)
      let bigA := 1 + uSq / 16384 * (4096 + uSq * (-768 + uSq * (320 - 175 * uSq)))
      let bigB := uSq / 1024 * (256 + uSq * (-128 + uSq * (74 - 47 * uSq)))
      let deltaSigma := bigB * sf.sinSigma * (sf.cos2SigmaM + bigB / 4 *
        (sf.cosSigma * (-1 + 2 * sf.cos2SigmaM * sf.cos2SigmaM) -
          bigB / 6 * sf.cos2SigmaM * (-3 + 4 * sf.sinSigma * sf.sinSigma) *
            (-3 + 4 * sf.cos2SigmaM * sf.cos2SigmaM)))
      b * bigA * (sf.sigma - deltaSigma)

/-- The convergence tolerance of the computeSpheroidProject do-while loop
(line 445). -/
def tol9 : ℚ := 1e-9

/-- The do-while loop of computeSpheroidProject (lines 437-445).  The body
runs at least once; the counter condition `i < 999` is modelled by the fuel,
which starts at 998 so that at most 999 bodies execute.  Returns the final
sigma together with the two_sigma_m of the last executed body. -/
def spheroidProjectLoop (ops : Ops) (bigB bA dist sigma1 : ℚ) :
    ℚ → ℕ → ℚ × ℚ
  | sigma, fuel =>
    let two_sigma_m := 2 * sigma1 + sigma
    let delta_sigma := bigB * ops.sin sigma * (ops.cos two_sigma_m + (bigB / 4) *
      (ops.cos sigma * (-1 + 2 * (ops.cos two_sigma_m * ops.cos two_sigma_m) -
        (bigB / 6) * ops.cos two_sigma_m * (-3 + 4 * (ops.sin sigma * ops.sin sigma)) *
          (-3 + 4 * (ops.cos two_sigma_m * ops.cos two_sigma_m)))))
    let last_sigma := sigma
    let sigma2 := dist / bA + delta_sigma
    match fuel with
    | 0 => (sigma2, two_sigma_m)
    | fuel' + 1 =>
      if tol9 < fabs ((last_sigma - sigma2) / sigma2) then
        spheroidProjectLoop ops bigB bA dist sigma1 sigma2 fuel'
      else (sigma2, two_sigma_m)

/-- computeSpheroidProject (lines 396-458): Vincenty direct with the domain
guard that returns the neutral point (0, 0) for |lon| > 180 or
|lat| > 85.05115 (or a < 0 and b < 0). -/
def computeSpheroidProject (st : DAState) (ops : Ops) (p1 : Point)
    (distance azimuth : ℚ) : Point :=
  let a := st.mSemiMajor
  let b := st.mSemiMinor
  let f := 1 / st.mInvFlattening
  if (a < 0 ∧ b < 0) ∨ p1.x < -180 ∨ p1.x > 180 ∨ p1.y < -85.05115 ∨ p1.y > 85.05115 then
    ⟨0, 0⟩
  else
    let radians_lat := deg2rad ops.piv p1.y
    let radians_long := deg2rad ops.piv p1.x
    let b2 := b * b
    let omf := 1 - f
    let tan_u1 := omf * ops.tan radians_lat
    let u1 := ops.atan tan_u1
    let azimuth1 := if azimuth < 0 then azimuth + ops.piv * 2 else azimuth
    let azimuth2 := if azimuth1 > ops.piv * 2 then azimuth1 - ops.piv * 2 else azimuth1
    let sigma1 := ops.atan2 tan_u1 (ops.cos azimuth2)
    let sin_alpha := ops.cos u1 * ops.sin azimuth2
    let alpha := ops.asin sin_alpha
    let cos_alphasq := 1 - sin_alpha * sin_alpha
    let u2 := (ops.cos alpha * ops.cos alpha) * (a * a - b2) / b2
    let bigA := 1 + (u2 / 16384) * (4096 + u2 * (-768 + u2 * (320 - 175 * u2)))
    let bigB := (u2 / 1024) * (256 + u2 * (-128 + u2 * (74 - 47 * u2)))
    let sigma0 := distance / (b * bigA)
    let sres := spheroidProjectLoop ops bigB (b * bigA) distance sigma1 sigma0 998
    let sigma := sres.1
    let two_sigma_m := sres.2
    let lat2 := ops.atan2
      (ops.sin u1 * ops.cos sigma + ops.cos u1 * ops.sin sigma * ops.cos azimuth2)
      (omf * ops.sqrt (sin_alpha * sin_alpha +
        (ops.sin u1 * ops.sin sigma - ops.cos u1 * ops.cos sigma * ops.cos azimuth2) *
        (ops.sin u1 * ops.sin sigma - ops.cos u1 * ops.cos sigma * ops.cos azimuth2)))
    let lambda := ops.atan2 (ops.sin sigma * ops.sin azimuth2)
      (ops.cos u1 * ops.cos sigma - ops.sin u1 * ops.sin sigma * ops.cos azimuth2)
    let cCC := (f / 16) * cos_alphasq * (4 + f * (4 - 3 * cos_alphasq))
    let omega := lambda - (1 - cCC) * f * sin_alpha * (sigma + cCC * ops.sin sigma *
      (ops.cos two_sigma_m + cCC * ops.cos sigma *
        (-1 + 2 * (ops.cos two_sigma_m * ops.cos two_sigma_m))))
    let lambda2 := radians_long + omega
    ⟨rad2deg ops.piv lambda2, rad2deg ops.piv lat2⟩

/-- QgsPointXY::distance (qgspointxy.h, outside src/): the Euclidean distance
sqrt((x - other.x)^2 + (y - other.y)^2), with sqrt from Ops. -/
def ptDistance (ops : Ops) (p q : Point) : ℚ :=
  ops.sqrt ((p.x - q.x) * (p.x - q.x) + (p.y - q.y) * (p.y - q.y))

/-- The collaborators of measureLineProjected that live outside src/:
the source-CRS flags and unit factor, and QgsPointXY::project. -/
structure MLPEnv where
  sourceIsGeographic : Bool
  mapUnitsIsMeters : Bool
  meterToMapFactor : ℚ
  project : Point → ℚ → ℚ → Point

/-- measureLineProjected (lines 350-387), returning (result, projectedPoint).
`QgsPointXY p2;` default-initializes to (0, 0); in the Cartesian branch with
non-meter units the source computes `result = p1.distance(p2)` before
`p2 = p1.project(distance, azimuth)` runs, so that distance is taken to the
still-default point. -/
def measureLineProjected (st : DAState) (ops : Ops) (env : MLPEnv) (p1 : Point)
    (distance azimuth : ℚ) : ℚ × Point :=
  let p2init : Point := ⟨0, 0⟩
  if env.sourceIsGeographic && willUseEllipsoid st then
    let p2 := computeSpheroidProject st ops p1 distance azimuth
    (ptDistance ops p1 p2, p2)
  else
    let rd :=
      if env.mapUnitsIsMeters = false then
        (ptDistance ops p1 p2init, distance * env.meterToMapFactor)
      else (distance, distance)
    (rd.1, env.project p1 rd.2 azimuth)

/-- measureLine(const QVector&lt;QgsPointXY&gt; &amp;) (lines 273-313).  The
coordinate transform may throw QgsCsException, modelled as Option: any
failure makes the whole call return 0 (the catch block).  Fewer than two
points: return 0 before anything else.  In ellipsoidal mode each point is
transformed and consecutive Vincenty distances are summed (the first
iteration adds the zero distance from points[0] to itself, as in the
source); in planar mode plain Euclidean distances are summed. -/
def measureLine (st : DAState) (ops : Ops) (transform : Point → Option Point)
    (points : List Point) : ℚ :=
  if points.length < 2 then 0
  else if willUseEllipsoid st then
    match points.mapM transform with
    | none => 0
    | some tpts =>
      match tpts with
      | [] => 0
      | p0 :: _ =>
        (tpts.foldl
          (fun acc p => (acc.1 + computeDistanceBearing st ops acc.2 p, p))
          ((0 : ℚ), p0)).1
  else
    match points with
    | [] => 0
    | p0 :: _ =>
      (points.foldl
        (fun acc p => (acc.1 + ptDistance ops p acc.2, p))
        ((0 : ℚ), p0)).1

/-! Concrete instantiations used by witnesses and counterexamples.  The Ops
fields are arbitrary rational-valued functions: the theorems hold for every
Ops, so any instantiation is a legitimate witness. -/

/-- The exact rational value of the IEEE-754 double constant M_PI. -/
def piDbl : ℚ := 884279719003555 / 281474976710656

/-- A concrete Ops instantiation.  Chosen so that the Vincenty inverse
lambda update becomes lambda' = 1 - lambda for the points used in the
iteration-policy witness (the sequence oscillates 1, 0, 1, 0, ... and never
converges), exercising the iteration-limit path. -/
def divergeOps : Ops where
  piv := 3
  sin := fun x => x
  cos := fun _ => 1
  tan := fun _ => 1
  asin := fun x => -x
  atan := fun x => x
  sqrt := fun _ => 1
  atan2 := fun _ _ => 2941 / 2816
  qgsDoubleNear := fun a b => decide (a = b)

/-- A concrete configured state: PARAMETER ellipsoid with a = 2, b = 1,
inverse flattening a / (a - b) = 2; mInvFlattening deliberately 1 so the
witness run has f = 1. -/
def cSt : DAState where
  mEllipsoid := EllipsoidId.params 2 1
  mSemiMajor := 2
  mSemiMinor := 1
  mInvFlattening := 1
  m_QA := 0
  m_QB := 0
  m_QC := 0
  m_QbarA := 0
  m_QbarB := 0
  m_QbarC := 0
  m_QbarD := 0
  m_AE := 0
  m_Qp := 0
  m_E := 0
  m_TwoPI := 0

/-- A concrete unconfigured state (mEllipsoid = GEO_NONE). -/
def noneSt : DAState :=
  { cSt with mEllipsoid := EllipsoidId.geoNone }

/-- A concrete already-converged Vincenty loop state (lambda = lambdaP). -/
def vinS0 : VinState where
  lambda := 0
  lambdaP := 0
  sinLambda := 0
  cosLambda := 0
  tu1 := 0
  tu2 := 0
  sinSigma := 0
  cosSigma := 0
  sigma := 0
  alpha := 0
  cosSqAlpha := 0
  cos2SigmaM := 0
  cC := 0

/-- A concrete measureLineProjected environment: Cartesian source CRS with
non-meter map units. -/
def cEnv : MLPEnv where
  sourceIsGeographic := false
  mapUnitsIsMeters := false
  meterToMapFactor := 2
  project := fun p _ _ => p

/-! Helper lemmas. -/

/-- On exit of the unwrap loop the guarded difference is at most piv. -/
theorem bumpLon_post (piv twoPi hi : ℚ) (ht : 0 < twoPi) :
    ∀ lo, hi - bumpLon piv twoPi hi lo ≤ piv := by
  refine bumpLon.induct piv twoPi hi
    (fun lo => hi - bumpLon piv twoPi hi lo ≤ piv) ?_ ?_
  · intro l hg ih
    rw [bumpLon.eq_def, dif_pos hg]
    exact ih
  · intro l hg
    rw [bumpLon.eq_def, dif_neg hg]
    rcases not_and_or.mp hg with h1 | h1
    · exact absurd ht h1
    · linarith [not_lt.mp h1]

/-- The unwrap loop never pushes the smaller side past hi + piv, provided
the increment is at most 2 * piv. -/
theorem bumpLon_lt (piv twoPi hi : ℚ) (hp : 0 < piv) (ht2 : twoPi ≤ piv + piv) :
    ∀ lo, lo < hi + piv → bumpLon piv twoPi hi lo < hi + piv := by
  refine bumpLon.induct piv twoPi hi
    (fun lo => lo < hi + piv → bumpLon piv twoPi hi lo < hi + piv) ?_ ?_
  · intro l hg ih _
    rw [bumpLon.eq_def, dif_pos hg]
    exact ih (by rcases hg with ⟨_, h2⟩; linarith)
  · intro l hg hlo
    rw [bumpLon.eq_def, dif_neg hg]
    exact hlo

/-- The source idiom `if (a &lt; 0) a = -a` equals the absolute value. -/
theorem ite_neg_abs (a : ℚ) : (if a < 0 then -a else a) = |a| := by
  split_ifs with h
  · exact (abs_of_neg h).symm
  · exact (abs_of_nonneg (not_lt.mp h)).symm

/-- The final area steps of the source coincide with the spec wording
applied to the absolute value of the raw area. -/
theorem polarKludge_eq_spec (E a : ℚ) :
    polarKludge E a = specPolarCorrected E |a| := by
  simp only [polarKludge, specPolarCorrected, ite_neg_abs]

/-- The polar kludge returns a nonnegative value whenever m_E is
nonnegative. -/
theorem polarKludge_nonneg (E a : ℚ) (hE : 0 ≤ E) : 0 ≤ polarKludge E a := by
  simp only [polarKludge]
  split_ifs with h1 h2 h3 h4 h5 h6 <;> linarith

/-- The planar shoelace result is an absolute value, hence nonnegative. -/
theorem computePolygonFlatArea_nonneg (points : List Point) :
    0 ≤ computePolygonFlatArea points := by
  simp only [computePolygonFlatArea, fabs_eq_abs]
  exact abs_nonneg _

/-- computeAreaInit does not change the ellipsoid tag. -/
theorem computeAreaInit_mEll (st : DAState) (ops : Ops) :
    (computeAreaInit st ops).mEllipsoid = st.mEllipsoid := by
  rw [computeAreaInit]
  split_ifs <;> rfl

/-- After computeAreaInit with a configured ellipsoid, m_E is nonnegative
(the source negates it when negative). -/
theorem computeAreaInit_mE_nonneg (st : DAState) (ops : Ops)
    (h : st.mEllipsoid ≠ EllipsoidId.geoNone) :
    0 ≤ (computeAreaInit st ops).m_E := by
  rw [computeAreaInit, if_neg h]
  simp only
  split_ifs with h1 <;> linarith

/-- A left fold that only accumulates sums of per-index terms is the sum of
the mapped list. -/
theorem foldl_addsub (A B : ℕ → ℚ) (l : List ℕ) (init : ℚ) :
    List.foldl (fun a i => a + A i - B i) init l
      = init + (l.map (fun i => A i - B i)).sum := by
  induction l generalizing init with
  | nil => simp
  | cons hd tl ih => simp [List.foldl_cons, ih]; ring

/-- The ghost iteration count of the Vincenty loop grows by at most the
available counter. -/
theorem vinLoop_count_le (step : VinState → VinState) (tol : ℚ) :
    ∀ il s cnt, (vinLoop step tol s il cnt).2.2 ≤ cnt + il := by
  intro il
  induction il with
  | zero =>
    intro s cnt
    rw [vinLoop.eq_def]
    split_ifs <;> simp
  | succ n ih =>
    intro s cnt
    rw [vinLoop.eq_def]
    dsimp only
    split_ifs with h h2
    · calc (vinLoop step tol (step s) n (cnt + 1)).2.2 ≤ cnt + 1 + n := ih (step s) (cnt + 1)
        _ = cnt + (n + 1) := by omega
    · simp
    · simp

/-- One non-final iteration of the Vincenty loop. -/
theorem vinLoop_go (step : VinState → VinState) (tol : ℚ) (s : VinState)
    (il' cnt : ℕ) (hc : tol < fabs (s.lambda - s.lambdaP)) (hil : 0 < il') :
    vinLoop step tol s (il' + 1) cnt = vinLoop step tol (step s) il' (cnt + 1) := by
  rw [vinLoop.eq_def, if_pos hc]
  simp [hil]

/-- The final, counter-exhausting iteration of the Vincenty loop. -/
theorem vinLoop_exhaust (step : VinState → VinState) (tol : ℚ) (s : VinState)
    (cnt : ℕ) (hc : tol < fabs (s.lambda - s.lambdaP)) :
    vinLoop step tol s 1 cnt = (s, 0, cnt) := by
  rw [vinLoop.eq_def, if_pos hc]
  simp

/-- A converged state exits the Vincenty loop immediately, leaving counter
and count untouched. -/
theorem vinLoop_converged (step : VinState → VinState) (s : VinState)
    (il cnt : ℕ) (h : |s.lambda - s.lambdaP| ≤ tolVin) :
    vinLoop step tolVin s il cnt = (s, il, cnt) := by
  rw [vinLoop.eq_def, if_neg]
  rw [fabs_eq_abs]
  exact not_lt.mpr h

/-! The claims. -/

/-- Claim C1, counterexample: at semiMajor = semiMinor = -1 (non-positive),
setEllipsoid(semiMajor, semiMinor) returns true, not false as the claim
states: the parameter setter performs no validation. -/
theorem set_ellipsoid_params_counterexample :
    ((-1 : ℚ) ≤ 0 ∨ (-1 : ℚ) ≤ 0) ∧
      (setEllipsoidFromParams cSt divergeOps (-1) (-1)).2 ≠ false :=
  ⟨Or.inl (by norm_num), by decide⟩

/-- Claim C1, amended: for every pair (semiMajor, semiMinor) with
semiMajor ≤ 0 or semiMinor ≤ 0, setEllipsoid(semiMajor, semiMinor) returns
true; the boolean error surfacing exists only in the id-based setter. -/
theorem set_ellipsoid_params_returns_true (st : DAState) (ops : Ops)
    (semiMajor semiMinor : ℚ) (h : semiMajor ≤ 0 ∨ semiMinor ≤ 0) :
    (setEllipsoidFromParams st ops semiMajor semiMinor).2 = true := rfl

/-- Witness for the amended C1 at the concrete non-positive pair (-2, 1). -/
theorem set_ellipsoid_params_returns_true_witness :
    ((-2 : ℚ) ≤ 0 ∨ (1 : ℚ) ≤ 0) ∧
      (setEllipsoidFromParams cSt divergeOps (-2) 1).2 = true :=
  ⟨Or.inl (by norm_num),
    set_ellipsoid_params_returns_true cSt divergeOps (-2) 1 (Or.inl (by norm_num))⟩

/-- Claim C3: for every input point p1 with |p1.x| &gt; 180 or
|p1.y| &gt; 85.05115, and every distance and azimuth,
computeSpheroidProject(p1, distance, azimuth) returns the neutral point
(0, 0); the return type carries no error signal. -/
theorem spheroid_project_domain_guard (st : DAState) (ops : Ops) (p1 : Point)
    (distance azimuth : ℚ) (h : 180 < |p1.x| ∨ (85.05115 : ℚ) < |p1.y|) :
    computeSpheroidProject st ops p1 distance azimuth = ⟨0, 0⟩ := by
  have hcond : (st.mSemiMajor < 0 ∧ st.mSemiMinor < 0) ∨ p1.x < -180 ∨ p1.x > 180 ∨
      p1.y < -85.05115 ∨ p1.y > 85.05115 := by
    rcases h with h | h
    · rcases lt_abs.mp h with h1 | h1
      · exact Or.inr (Or.inr (Or.inl h1))
      · exact Or.inr (Or.inl (by linarith))
    · rcases lt_abs.mp h with h1 | h1
      · exact Or.inr (Or.inr (Or.inr (Or.inr h1)))
      · exact Or.inr (Or.inr (Or.inr (Or.inl (by linarith))))
  simp only [computeSpheroidProject]
  rw [if_pos hcond]

/-- Witness for C3 at the concrete out-of-domain point (200, 0). -/
theorem spheroid_project_domain_guard_witness :
    ((180 : ℚ) < |(200 : ℚ)| ∨ (85.05115 : ℚ) < |(0 : ℚ)|) ∧
      computeSpheroidProject cSt divergeOps ⟨200, 0⟩ 5 1 = ⟨0, 0⟩ :=
  ⟨Or.inl (by norm_num),
    spheroid_project_domain_guard cSt divergeOps ⟨200, 0⟩ 5 1 (Or.inl (by norm_num))⟩

/-- Claim C9: in the Cartesian branch of measureLineProjected, when the map
units differ from meters, the returned distance is p1.distance(p2) taken
before p2 is assigned, i.e. the distance from p1 to the default-initialized
point (0, 0), for every p1, distance and azimuth. -/
theorem measure_line_projected_units_bug (st : DAState) (ops : Ops) (env : MLPEnv)
    (p1 : Point) (distance azimuth : ℚ)
    (h1 : (env.sourceIsGeographic && willUseEllipsoid st) = false)
    (h2 : env.mapUnitsIsMeters = false) :
    (measureLineProjected st ops env p1 distance azimuth).1
      = ptDistance ops p1 ⟨0, 0⟩ := by
  simp only [measureLineProjected, h1, h2]
  simp

/-- Witness for C9: a Cartesian environment with non-meter units. -/
theorem measure_line_projected_units_bug_witness :
    ((cEnv.sourceIsGeographic && willUseEllipsoid cSt) = false) ∧
      cEnv.mapUnitsIsMeters = false ∧
      (measureLineProjected cSt divergeOps cEnv ⟨3, 4⟩ 10 0).1
        = ptDistance divergeOps ⟨3, 4⟩ ⟨0, 0⟩ :=
  ⟨by decide, by decide,
    measure_line_projected_units_bug cSt divergeOps cEnv ⟨3, 4⟩ 10 0
      (by decide) (by decide)⟩

/-- Claim C10: for every point vector with fewer than 2 points,
measureLine(points) returns 0, for every mode (any state) and for every
coordinate transform; the transform is never consulted. -/
theorem measure_line_short_input (st : DAState) (ops : Ops)
    (transform : Point → Option Point) (points : List Point)
    (h : points.length < 2) :
    measureLine st ops transform points = 0 := by
  simp only [measureLine]
  rw [if_pos h]

/-- Witness for C10 at the concrete single-point input. -/
theorem measure_line_short_input_witness :
    ([(⟨7, 8⟩ : Point)].length < 2) ∧
      measureLine cSt divergeOps (fun p => some p) [⟨7, 8⟩] = 0 :=
  ⟨by decide,
    measure_line_short_input cSt divergeOps (fun p => some p) [⟨7, 8⟩] (by decide)⟩

/-- Claim C4: in ellipsoidal mode (derived constants from computeAreaInit),
for every vertex list, computePolygonArea equals the spec composition:
absolute value of (edge sum * AE), clamped to Eref when above Eref, then
replaced by Eref - area when the (possibly clamped) area exceeds Eref / 2,
in that order. -/
theorem ellipsoidal_area_polar_order (st : DAState) (ops : Ops) (points : List Point)
    (h : st.mEllipsoid ≠ EllipsoidId.geoNone) :
    computePolygonArea (computeAreaInit st ops) ops points
      = specPolarCorrected (computeAreaInit st ops).m_E
          |ellSum (computeAreaInit st ops) ops points * (computeAreaInit st ops).m_AE| := by
  have huse : willUseEllipsoid (computeAreaInit st ops) = true := by
    rw [willUseEllipsoid_true_iff, computeAreaInit_mEll]
    exact h
  have hE : 0 ≤ (computeAreaInit st ops).m_E := computeAreaInit_mE_nonneg st ops h
  simp only [computePolygonArea]
  by_cases hp : points = []
  · rw [if_pos hp]
    subst hp
    have hsum : ellSum (computeAreaInit st ops) ops ([] : List Point) = 0 := by
      simp [ellSum]
    rw [hsum, zero_mul, abs_zero]
    simp only [specPolarCorrected]
    split_ifs <;> linarith
  · rw [if_neg hp, if_neg (by rw [huse]; simp)]
    exact polarKludge_eq_spec _ _

/-- Witness for C4 at a concrete configured state and vertex list. -/
theorem ellipsoidal_area_polar_order_witness :
    cSt.mEllipsoid ≠ EllipsoidId.geoNone ∧
      computePolygonArea (computeAreaInit cSt divergeOps) divergeOps [⟨0, 0⟩]
        = specPolarCorrected (computeAreaInit cSt divergeOps).m_E
            |ellSum (computeAreaInit cSt divergeOps) divergeOps [⟨0, 0⟩]
              * (computeAreaInit cSt divergeOps).m_AE| :=
  ⟨by decide, ellipsoidal_area_polar_order cSt divergeOps [⟨0, 0⟩] (by decide)⟩

/-- Claim C5: in ellipsoidal mode (derived constants from computeAreaInit),
computePolygonArea is nonnegative for every vertex list. -/
theorem ellipsoidal_area_nonneg (st : DAState) (ops : Ops) (points : List Point)
    (h : st.mEllipsoid ≠ EllipsoidId.geoNone) :
    0 ≤ computePolygonArea (computeAreaInit st ops) ops points := by
  simp only [computePolygonArea]
  split_ifs with h1 h2
  · norm_num
  · exact computePolygonFlatArea_nonneg points
  · exact polarKludge_nonneg _ _ (computeAreaInit_mE_nonneg st ops h)

/-- Witness for C5 at a concrete configured state and vertex list. -/
theorem ellipsoidal_area_nonneg_witness :
    cSt.mEllipsoid ≠ EllipsoidId.geoNone ∧
      0 ≤ computePolygonArea (computeAreaInit cSt divergeOps) divergeOps
            [⟨0, 0⟩, ⟨0, 60⟩] :=
  ⟨by decide, ellipsoidal_area_nonneg cSt divergeOps [⟨0, 0⟩, ⟨0, 60⟩] (by decide)⟩

/-- Claim C6, counterexample: with the exact double value of M_PI, the edge
x1 = M_PI, x2 = 0 leaves dx = -M_PI, which is outside the claimed half-open
interval (-pi, pi]. -/
theorem unwrap_dx_counterexample :
    ¬ (-piDbl < (unwrapLon piDbl (piDbl + piDbl) piDbl 0).2
          - (unwrapLon piDbl (piDbl + piDbl) piDbl 0).1 ∧
        (unwrapLon piDbl (piDbl + piDbl) piDbl 0).2
          - (unwrapLon piDbl (piDbl + piDbl) piDbl 0).1 ≤ piDbl) := by
  have hpi : (0 : ℚ) < piDbl := by norm_num [piDbl]
  have hb : bumpLon piDbl (piDbl + piDbl) piDbl 0 = 0 := by
    rw [bumpLon.eq_def, dif_neg (by simp)]
  have hu : unwrapLon piDbl (piDbl + piDbl) piDbl 0 = (piDbl, 0) := by
    simp only [unwrapLon]
    rw [if_pos hpi, hb]
  rw [hu]
  dsimp only
  intro hcon
  have h1 := hcon.1
  simp at h1

/-- Claim C6, amended: for every pair of longitudes, the unwrap step with
increment 2 * pi yields dx in the closed interval [-pi, pi]; the value -pi
occurs exactly when x1 - x2 = pi, because the loop condition is the strict
comparison x1 - x2 &gt; pi. -/
theorem unwrap_dx_closed_interval (piv x1 x2 : ℚ) (hp : 0 < piv) :
    -piv ≤ (unwrapLon piv (piv + piv) x1 x2).2 - (unwrapLon piv (piv + piv) x1 x2).1 ∧
      (unwrapLon piv (piv + piv) x1 x2).2 - (unwrapLon piv (piv + piv) x1 x2).1 ≤ piv := by
  have h2p : (0 : ℚ) < piv + piv := by linarith
  simp only [unwrapLon]
  split_ifs with hgt hlt
  · have hpost := bumpLon_post piv (piv + piv) x1 h2p x2
    have hup := bumpLon_lt piv (piv + piv) x1 hp (le_refl _) x2 (by linarith)
    constructor <;> dsimp only <;> linarith
  · have hpost := bumpLon_post piv (piv + piv) x2 h2p x1
    have hup := bumpLon_lt piv (piv + piv) x2 hp (le_refl _) x1 (by linarith)
    constructor <;> dsimp only <;> linarith
  · have heq : x1 = x2 := le_antisymm (not_lt.mp hgt) (not_lt.mp hlt)
    constructor <;> dsimp only <;> linarith [heq]

/-- Witness for the amended C6 at concrete values piv = 3, x1 = 0, x2 = 1. -/
theorem unwrap_dx_closed_interval_witness :
    (0 : ℚ) < 3 ∧
      (-(3 : ℚ) ≤ (unwrapLon 3 (3 + 3) 0 1).2 - (unwrapLon 3 (3 + 3) 0 1).1 ∧
        (unwrapLon 3 (3 + 3) 0 1).2 - (unwrapLon 3 (3 + 3) 0 1).1 ≤ 3) :=
  ⟨by norm_num, unwrap_dx_closed_interval 3 0 1 (by norm_num)⟩

/-- Claim C7: with no ellipsoid configured, computePolygonArea on a
non-empty vertex list is the planar shoelace value
(1/2) * |sum of (x_i * y_(i+1) - x_(i+1) * y_i)| with index wrap mod n. -/
theorem flat_area_is_shoelace (st : DAState) (ops : Ops) (points : List Point)
    (h1 : st.mEllipsoid = EllipsoidId.geoNone) (h2 : points ≠ []) :
    computePolygonArea st ops points = specShoelaceArea points := by
  have huse : willUseEllipsoid st = false := (willUseEllipsoid_false_iff st).mpr h1
  simp only [computePolygonArea]
  rw [if_neg h2, if_pos huse]
  simp only [computePolygonFlatArea, specShoelaceArea, fabs_eq_abs]
  rw [foldl_addsub, zero_add, abs_div]
  rw [abs_two]
  ring

/-- Witness for C7 at a concrete planar triangle. -/
theorem flat_area_is_shoelace_witness :
    noneSt.mEllipsoid = EllipsoidId.geoNone ∧
      ([(⟨0, 0⟩ : Point), ⟨1, 0⟩, ⟨0, 1⟩] ≠ []) ∧
      computePolygonArea noneSt divergeOps [⟨0, 0⟩, ⟨1, 0⟩, ⟨0, 1⟩]
        = specShoelaceArea [⟨0, 0⟩, ⟨1, 0⟩, ⟨0, 1⟩] :=
  ⟨by decide, by decide,
    flat_area_is_shoelace noneSt divergeOps [⟨0, 0⟩, ⟨1, 0⟩, ⟨0, 1⟩]
      (by decide) (by decide)⟩

/-- Claim C2: the Vincenty inverse loop of computeDistanceBearing performs
at most 20 lambda updates (its ghost count), exits as soon as
|lambda - lambdaP| ≤ 1e-12 without touching the counter, and when the
counter is exhausted without convergence the function returns -1. -/
theorem vincenty_inverse_iteration_policy (st : DAState) (ops : Ops) (p1 p2 : Point) :
    (vinRun st ops p1 p2).2.2 ≤ 20 ∧
      (∀ (step : VinState → VinState) (s : VinState) (il cnt : ℕ),
          |s.lambda - s.lambdaP| ≤ tolVin →
            vinLoop step tolVin s il cnt = (s, il, cnt)) ∧
      ((ops.qgsDoubleNear p1.x p2.x && ops.qgsDoubleNear p1.y p2.y) = false →
        (vinRun st ops p1 p2).2.1 = 0 →
          computeDistanceBearing st ops p1 p2 = -1) := by
  refine ⟨?_, ?_, ?_⟩
  · have hle := vinLoop_count_le (vinStepOf st ops p1 p2) tolVin 20 (vinInitOf ops p1 p2) 0
    simpa [vinRun] using hle
  · intro step s il cnt hconv
    exact vinLoop_converged step s il cnt hconv
  · intro hnear hrem
    simp only [computeDistanceBearing, hnear, Bool.false_eq_true, if_false]
    rw [if_pos hrem]

/-- Witness for C2: with the divergent Ops instantiation the lambda update
is lambda' = 1 + (6787/4096) * lambda, which never converges, so the run
from (0,0) to (60,0) exhausts the counter and returns -1; a converged state
exits the loop untouched. -/
theorem vincenty_inverse_iteration_policy_witness :
    (vinRun cSt divergeOps ⟨0, 0⟩ ⟨60, 0⟩).2.2 ≤ 20 ∧
      vinLoop (fun s => s) tolVin vinS0 7 3 = (vinS0, 7, 3) ∧
      computeDistanceBearing cSt divergeOps ⟨0, 0⟩ ⟨60, 0⟩ = -1 := by
  obtain ⟨h1, h2, h3⟩ := vincenty_inverse_iteration_policy cSt divergeOps ⟨0, 0⟩ ⟨60, 0⟩
  refine ⟨h1, h2 (fun s => s) vinS0 7 3 ?_, h3 ?_ ?_⟩
  · norm_num [vinS0, tolVin]
  · norm_num [divergeOps]
  · norm_num [vinRun, vinLoop_go, vinLoop_exhaust, vinStepOf, vinStep, vinInitOf,
      deg2rad, tolVin, fabs, cSt, divergeOps]

end QgsDistanceArea
